import Mathlib

/-!
# Storage account cache (azurerm/internal/services/storage/helpers.go)

A shallow embedding of the storage helpers: the process-wide account cache
(storageAccountsCache), its two mutexes (accountsLock, credentialsLock) and the
four operations AccountKey, AddToCache, RemoveAccountFromCache and FindAccount,
together with populateAccountDetails.

Modelling conventions

* Go pointers that may be nil are Option values; a Go pair (value, error) is a
  Lean pair of Options, so that the source's "nil, nil" stays expressible.
* The package-level variables form an explicit State that every operation takes
  and returns.  A mutex is a Bool (true = held).  Lock on a held mutex never
  returns in a sequential run, so every operation returns an Option whose none
  means "blocked for ever on Lock".
* The remote service is observed through State.remoteCalls, the trace of calls
  made on AccountsClient, in order.
* AccountKey has a pointer receiver and assigns to it; the embedding returns the
  receiver after the call next to the Go result.
* log.Printf and the context argument have no effect on any value and are left
  out.
-/

namespace AzureSDK

/-- The fields of the SDK type storage.Account that the helpers read. The type
P stands for storage.AccountProperties, which the helpers only pass on. -/
structure Account (P : Type) where
  ID : Option String
  Name : Option String
  AccountProperties : Option P

/-- The SDK type storage.AccountListResult: Value is a pointer to a slice. -/
structure AccountListResult (P : Type) where
  Value : Option (List (Account P))

/-- The SDK type storage.AccountKey: one access key of an account. -/
structure AccountKey where
  KeyName : Option String
  Value : Option String

/-- The SDK type storage.AccountListKeysResult: Keys is a pointer to a slice. -/
structure AccountListKeysResult where
  Keys : Option (List AccountKey)

end AzureSDK

namespace Storage

/-- Go error values. The external constructor is an error produced by a
collaborator (the SDK client or ParseAccountID); the others are the fmt.Errorf
sites of helpers.go, keeping the arguments that are formatted into the message. -/
inductive Error where
  | external (msg : String)
  | listingKeys (name resourceGroup : String) (cause : Error)
  | keysWereNil (name resourceGroup : String)
  | retrievingAccounts (cause : Error)
  | accountsWasNil
  | idWasNil (accountName : String)
  | parsingResourceID (accountId : String) (cause : Error)
  deriving DecidableEq, Repr

/-- The part of the result of ParseAccountID that the helpers read. -/
structure AccountID where
  ResourceGroup : String
  deriving DecidableEq, Repr

/-- The struct accountDetails (helpers.go, lines 19-26). -/
structure accountDetails (P : Type) where
  ID : String
  ResourceGroup : String
  Properties : Option P
  accountKey : Option String
  name : String
  deriving DecidableEq, Repr

/-- The two methods of the SDK accounts client that the helpers call, as the
answers they give: List takes no argument besides the context, ListKeys takes the
resource group and the account name. -/
structure AccountsClient (P : Type) where
  List : Except Error (AzureSDK.AccountListResult P)
  ListKeys : String → String → Except Error AzureSDK.AccountListKeysResult

/-- The struct Client, of which the helpers use the AccountsClient field. -/
structure Client (P : Type) where
  AccountsClient : AccountsClient P

/-- One call made on the remote accounts client. -/
inductive RemoteCall where
  | List
  | ListKeys (resourceGroup accountName : String)
  deriving DecidableEq, Repr

/-- The package-level variables (helpers.go, lines 12-17) and the trace of remote
calls made so far. -/
structure State (P : Type) where
  storageAccountsCache : String → Option (accountDetails P)
  accountsLock : Bool
  credentialsLock : Bool
  remoteCalls : List RemoteCall

/-- The state at process start: empty map, both mutexes free, no call made. -/
def State.init (P : Type) : State P where
  storageAccountsCache := fun _ => none
  accountsLock := false
  credentialsLock := false
  remoteCalls := []

/-- Go map assignment m[k] = v. -/
def mapSet {P : Type} (m : String → Option (accountDetails P)) (k : String)
    (v : accountDetails P) : String → Option (accountDetails P) :=
  fun k' => if k' = k then some v else m k'

/-- Go delete(m, k). -/
def mapDelete {P : Type} (m : String → Option (accountDetails P)) (k : String) :
    String → Option (accountDetails P) :=
  fun k' => if k' = k then none else m k'

section Operations

variable {P : Type}

/-- The method populateAccountDetails (helpers.go, lines 112-129). It returns
either (nil, error) or (record, nil), hence Except. ParseAccountID lives in
another file of the package and is taken as a parameter. -/
def populateAccountDetails (ParseAccountID : String → Except Error AccountID)
    (accountName : String) (props : AzureSDK.Account P) :
    Except Error (accountDetails P) :=
  match props.ID with
  | none => Except.error (Error.idWasNil accountName)
  | some accountId =>
    match ParseAccountID accountId with
    | Except.error err => Except.error (Error.parsingResourceID accountId err)
    | Except.ok id =>
      Except.ok { name := accountName
                  ID := accountId
                  ResourceGroup := id.ResourceGroup
                  Properties := props.AccountProperties
                  accountKey := none }

/-- The method AccountKey (helpers.go, lines 28-53). The result is the Go pair,
the receiver after the call and the state after the call; none when Lock never
returns. -/
def AccountKey (ad : accountDetails P) (client : Client P) (s : State P) :
    Option ((Option String × Option Error) × accountDetails P × State P) :=
  if s.credentialsLock then none
  else
    let s1 : State P := { s with credentialsLock := true }
    match ad.accountKey with
    | some key => some ((some key, none), ad, s1)
    | none =>
      let s2 : State P :=
        { s1 with remoteCalls := s1.remoteCalls ++ [RemoteCall.ListKeys ad.ResourceGroup ad.name] }
      match client.AccountsClient.ListKeys ad.ResourceGroup ad.name with
      | Except.error err =>
        some ((none, some (Error.listingKeys ad.name ad.ResourceGroup err)), ad,
          { s2 with credentialsLock := false })
      | Except.ok props =>
        match props.Keys with
        | none =>
          some ((none, some (Error.keysWereNil ad.name ad.ResourceGroup)), ad,
            { s2 with credentialsLock := false })
        | some [] =>
          some ((none, some (Error.keysWereNil ad.name ad.ResourceGroup)), ad,
            { s2 with credentialsLock := false })
        | some (key :: _) =>
          match key.Value with
          | none =>
            some ((none, some (Error.keysWereNil ad.name ad.ResourceGroup)), ad,
              { s2 with credentialsLock := false })
          | some value =>
            some ((none, none), { ad with accountKey := some value },
              { s2 with credentialsLock := false })

/-- The method AddToCache (helpers.go, lines 55-67): the returned error and the
state after the call. The deferred Unlock runs on both return paths. -/
def AddToCache (ParseAccountID : String → Except Error AccountID)
    (accountName : String) (props : AzureSDK.Account P) (s : State P) :
    Option (Option Error × State P) :=
  if s.accountsLock then none
  else
    let s1 : State P := { s with accountsLock := true }
    match populateAccountDetails ParseAccountID accountName props with
    | Except.error err => some (some err, { s1 with accountsLock := false })
    | Except.ok account =>
      some (none, { s1 with
        storageAccountsCache := mapSet s1.storageAccountsCache accountName account
        accountsLock := false })

/-- The method RemoveAccountFromCache (helpers.go, lines 69-73). -/
def RemoveAccountFromCache (accountName : String) (s : State P) : Option (State P) :=
  if s.accountsLock then none
  else
    let s1 : State P := { s with accountsLock := true }
    let s2 : State P :=
      { s1 with storageAccountsCache := mapDelete s1.storageAccountsCache accountName }
    some { s2 with accountsLock := false }

/-- The range loop of FindAccount (helpers.go, lines 92-103) over the remaining
accounts: the map after the loop, and the error that made the loop return early
if there was one. -/
def populateLoop (ParseAccountID : String → Except Error AccountID) (accountName : String) :
    List (AzureSDK.Account P) → (String → Option (accountDetails P)) →
    (String → Option (accountDetails P)) × Option Error
  | [], m => (m, none)
  | v :: rest, m =>
    match v.Name with
    | none => populateLoop ParseAccountID accountName rest m
    | some vName =>
      match populateAccountDetails ParseAccountID accountName v with
      | Except.error err => (m, some err)
      | Except.ok account =>
        populateLoop ParseAccountID accountName rest (mapSet m vName account)

/-- The method FindAccount (helpers.go, lines 75-110): the Go pair and the state
after the call. The deferred Unlock runs on every return path. -/
def FindAccount (ParseAccountID : String → Except Error AccountID) (client : Client P)
    (accountName : String) (s : State P) :
    Option ((Option (accountDetails P) × Option Error) × State P) :=
  if s.accountsLock then none
  else
    let s1 : State P := { s with accountsLock := true }
    match s1.storageAccountsCache accountName with
    | some existing => some ((some existing, none), { s1 with accountsLock := false })
    | none =>
      let s2 : State P := { s1 with remoteCalls := s1.remoteCalls ++ [RemoteCall.List] }
      match client.AccountsClient.List with
      | Except.error err =>
        some ((none, some (Error.retrievingAccounts err)), { s2 with accountsLock := false })
      | Except.ok accounts =>
        match accounts.Value with
        | none => some ((none, some Error.accountsWasNil), { s2 with accountsLock := false })
        | some value =>
          match populateLoop ParseAccountID accountName value s2.storageAccountsCache with
          | (m, some err) =>
            some ((none, some err), { s2 with storageAccountsCache := m, accountsLock := false })
          | (m, none) =>
            match m accountName with
            | some existing =>
              some ((some existing, none),
                { s2 with storageAccountsCache := m, accountsLock := false })
            | none =>
              some ((none, none), { s2 with storageAccountsCache := m, accountsLock := false })

end Operations

/-! ## Concrete collaborators for the scenarios -/

/-- The resource ID of account acct1 in resource group rg1. -/
def idAcct1 : String :=
  "/subscriptions/s/resourceGroups/rg1/providers/Microsoft.Storage/storageAccounts/acct1"

/-- The resource ID of account acct2 in resource group rg2. -/
def idAcct2 : String :=
  "/subscriptions/s/resourceGroups/rg2/providers/Microsoft.Storage/storageAccounts/acct2"

/-- A resource ID of an account named acct1 in resource group rg2. -/
def idAcct1InRg2 : String :=
  "/subscriptions/s/resourceGroups/rg2/providers/Microsoft.Storage/storageAccounts/acct1"

/-- A stand-in for ParseAccountID in the concrete scenarios: it accepts the three
resource IDs above and rejects every other string. -/
def stubParseAccountID (raw : String) : Except Error AccountID :=
  if raw = idAcct1 then Except.ok { ResourceGroup := "rg1" }
  else if raw = idAcct2 then Except.ok { ResourceGroup := "rg2" }
  else if raw = idAcct1InRg2 then Except.ok { ResourceGroup := "rg2" }
  else Except.error (Error.external "not a storage account ID")

/-- A remote client whose List answers with the given accounts and whose ListKeys
answers with the single key KEY123. -/
def stubClient (accounts : List (AzureSDK.Account Unit)) : Client Unit where
  AccountsClient :=
    { List := Except.ok { Value := some accounts }
      ListKeys := fun _ _ =>
        Except.ok { Keys := some [{ KeyName := some "key1", Value := some "KEY123" }] } }

/-- The raw account acct1 of resource group rg1. -/
def rawAcct1 : AzureSDK.Account Unit where
  ID := some idAcct1
  Name := some "acct1"
  AccountProperties := none

/-- The raw account acct2 of resource group rg2. -/
def rawAcct2 : AzureSDK.Account Unit where
  ID := some idAcct2
  Name := some "acct2"
  AccountProperties := none

/-- A second raw account that bears the name acct1, in resource group rg2. -/
def rawAcct1InRg2 : AzureSDK.Account Unit where
  ID := some idAcct1InRg2
  Name := some "acct1"
  AccountProperties := none

/-- A raw account named acct2 that has no ID. -/
def rawAcct2NoID : AzureSDK.Account Unit where
  ID := none
  Name := some "acct2"
  AccountProperties := none

/-- A remote client whose List succeeds with a nil Value. -/
def nilValueClient : Client Unit where
  AccountsClient :=
    { List := Except.ok { Value := none }
      ListKeys := fun _ _ => Except.error (Error.external "not used") }

/-- The record that populateAccountDetails builds for acct1. -/
def recordAcct1 : accountDetails Unit where
  ID := idAcct1
  ResourceGroup := "rg1"
  Properties := none
  accountKey := none
  name := "acct1"

/-- The accounts of a List answer: the elements of Value, none when Value is
nil. -/
def returnedAccounts {P : Type} (accounts : AzureSDK.AccountListResult P) :
    List (AzureSDK.Account P) :=
  accounts.Value.getD []

/-- The record r is built from the raw account v: its ID is the ID of v, its
resource group is the one ParseAccountID reads from that ID, its properties are
those of v. -/
def builtFrom {P : Type} (ParseAccountID : String → Except Error AccountID)
    (r : accountDetails P) (v : AzureSDK.Account P) : Prop :=
  v.ID = some r.ID
    ∧ (∃ id, ParseAccountID r.ID = Except.ok id ∧ r.ResourceGroup = id.ResourceGroup)
    ∧ r.Properties = v.AccountProperties

/-- The states that a sequential run can reach from the initial state through
calls of AddToCache, RemoveAccountFromCache and FindAccount that return, with
any arguments and any remote client at each call. -/
inductive Reachable {P : Type} (ParseAccountID : String → Except Error AccountID) :
    State P → Prop where
  | init : Reachable ParseAccountID (State.init P)
  | addToCache {s s' : State P} (accountName : String) (props : AzureSDK.Account P)
      (err : Option Error) :
      Reachable ParseAccountID s →
      AddToCache ParseAccountID accountName props s = some (err, s') →
      Reachable ParseAccountID s'
  | removeAccountFromCache {s s' : State P} (accountName : String) :
      Reachable ParseAccountID s →
      RemoveAccountFromCache accountName s = some s' →
      Reachable ParseAccountID s'
  | findAccount {s s' : State P} (client : Client P) (accountName : String)
      (res : Option (accountDetails P) × Option Error) :
      Reachable ParseAccountID s →
      FindAccount ParseAccountID client accountName s = some (res, s') →
      Reachable ParseAccountID s'

/-- The accounts that an enumeration through this client yields: those of the
List answer, none when List fails. -/
def enumeratedAccounts {P : Type} (client : Client P) : List (AzureSDK.Account P) :=
  match client.AccountsClient.List with
  | Except.ok accounts => returnedAccounts accounts
  | Except.error _ => []

/-- A remote client whose List fails. -/
def failingListClient : Client Unit where
  AccountsClient :=
    { List := Except.error (Error.external "remote failure")
      ListKeys := fun _ _ => Except.error (Error.external "not used") }

/-- A remote client whose ListKeys gives the stated answer for every account. -/
def keysClient (answer : Except Error AzureSDK.AccountListKeysResult) : Client Unit where
  AccountsClient :=
    { List := Except.ok { Value := some [] }
      ListKeys := fun _ _ => answer }

/-- A raw account that has neither name nor ID. -/
def rawUnnamedNoID : AzureSDK.Account Unit where
  ID := none
  Name := none
  AccountProperties := none

/-- The states that a sequential run can reach from the initial state through
calls that return of AddToCache, RemoveAccountFromCache, FindAccount and of
AccountKey on a record held by the caller. The receiver of AccountKey is a copy
that FindAccount handed out (line 80 and line 106 return the address of the local
variable existing), so the call acts on the caller's record and on the state; any
record is allowed as receiver here, which covers the returned copies. -/
inductive ReachableWithKeys {P : Type} (ParseAccountID : String → Except Error AccountID) :
    State P → Prop where
  | init : ReachableWithKeys ParseAccountID (State.init P)
  | addToCache {s s' : State P} (accountName : String) (props : AzureSDK.Account P)
      (err : Option Error) :
      ReachableWithKeys ParseAccountID s →
      AddToCache ParseAccountID accountName props s = some (err, s') →
      ReachableWithKeys ParseAccountID s'
  | removeAccountFromCache {s s' : State P} (accountName : String) :
      ReachableWithKeys ParseAccountID s →
      RemoveAccountFromCache accountName s = some s' →
      ReachableWithKeys ParseAccountID s'
  | findAccount {s s' : State P} (client : Client P) (accountName : String)
      (res : Option (accountDetails P) × Option Error) :
      ReachableWithKeys ParseAccountID s →
      FindAccount ParseAccountID client accountName s = some (res, s') →
      ReachableWithKeys ParseAccountID s'
  | accountKey {s s' : State P} (ad ad' : accountDetails P) (client : Client P)
      (res : Option String × Option Error) :
      ReachableWithKeys ParseAccountID s →
      AccountKey ad client s = some (res, ad', s') →
      ReachableWithKeys ParseAccountID s'

/-- The state after acct1 was added to the empty registry, found, and its secret
resolved on the copy that FindAccount returned. -/
def stateAfterResolve : State Unit where
  storageAccountsCache := mapSet (State.init Unit).storageAccountsCache "acct1" recordAcct1
  accountsLock := false
  credentialsLock := false
  remoteCalls := [RemoteCall.ListKeys "rg1" "acct1"]

/-! ## Shared lemmas on FindAccount -/

/-- On a miss with the registry lock free, FindAccount returns and the trace of
remote calls grows by exactly one List call, whatever the client answers. -/
theorem FindAccount_miss_calls_List {P : Type}
    (ParseAccountID : String → Except Error AccountID) (client : Client P)
    (accountName : String) (s : State P)
    (hfree : s.accountsLock = false)
    (hmiss : s.storageAccountsCache accountName = none) :
    ∃ res s2, FindAccount ParseAccountID client accountName s = some (res, s2)
      ∧ s2.remoteCalls = s.remoteCalls ++ [RemoteCall.List] := by
  simp only [FindAccount, hfree, hmiss, Bool.false_eq_true, if_false]
  split
  · exact ⟨_, _, rfl, rfl⟩
  · split
    · exact ⟨_, _, rfl, rfl⟩
    · split
      · exact ⟨_, _, rfl, rfl⟩
      · split
        · exact ⟨_, _, rfl, rfl⟩
        · exact ⟨_, _, rfl, rfl⟩

/-- The loop leaves alone every key that is not the name of an enumerated
account. -/
theorem populateLoop_frame {P : Type} (ParseAccountID : String → Except Error AccountID)
    (accountName : String) (k : String) (value : List (AzureSDK.Account P)) :
    ∀ m : String → Option (accountDetails P),
      (∀ v ∈ value, v.Name ≠ some k) →
      (populateLoop ParseAccountID accountName value m).1 k = m k := by
  induction value with
  | nil => intro m _; rfl
  | cons v rest ih =>
    intro m hk
    have hv : v.Name ≠ some k := hk v (List.mem_cons_self _ _)
    have hrest : ∀ w ∈ rest, w.Name ≠ some k := fun w hw => hk w (List.mem_cons_of_mem _ hw)
    cases hname : v.Name with
    | none =>
      simp only [populateLoop, hname]
      exact ih m hrest
    | some vName =>
      have hne : k ≠ vName := fun h => hv (by rw [hname, h])
      cases hpop : populateAccountDetails ParseAccountID accountName v with
      | error err => simp only [populateLoop, hname, hpop]
      | ok account =>
        simp only [populateLoop, hname, hpop]
        rw [ih _ hrest]
        simp [mapSet, hne]

/-- The loop ends without error when populateAccountDetails succeeds on every
named account. -/
theorem populateLoop_no_error {P : Type} (ParseAccountID : String → Except Error AccountID)
    (accountName : String) (value : List (AzureSDK.Account P)) :
    ∀ m : String → Option (accountDetails P),
      (∀ v ∈ value, v.Name ≠ none →
        ∃ r, populateAccountDetails ParseAccountID accountName v = Except.ok r) →
      (populateLoop ParseAccountID accountName value m).2 = none := by
  induction value with
  | nil => intro m _; rfl
  | cons v rest ih =>
    intro m hvalid
    have hrest : ∀ w ∈ rest, w.Name ≠ none →
        ∃ r, populateAccountDetails ParseAccountID accountName w = Except.ok r :=
      fun w hw => hvalid w (List.mem_cons_of_mem _ hw)
    cases hname : v.Name with
    | none =>
      simp only [populateLoop, hname]
      exact ih m hrest
    | some vName =>
      obtain ⟨r, hr⟩ := hvalid v (List.mem_cons_self _ _) (by simp [hname])
      simp only [populateLoop, hname, hr]
      exact ih _ hrest

/-- After a loop in which populateAccountDetails succeeds on every named account,
the map holds under a name the record of the last enumerated account that bears
it. -/
theorem populateLoop_last {P : Type} (ParseAccountID : String → Except Error AccountID)
    (accountName : String) (v : AzureSDK.Account P) (post : List (AzureSDK.Account P))
    (n : String) (r : accountDetails P)
    (hname : v.Name = some n)
    (hpost : ∀ w ∈ post, w.Name ≠ some n)
    (hr : populateAccountDetails ParseAccountID accountName v = Except.ok r)
    (pre : List (AzureSDK.Account P)) :
    ∀ m : String → Option (accountDetails P),
      (∀ w ∈ pre, w.Name ≠ none →
        ∃ r', populateAccountDetails ParseAccountID accountName w = Except.ok r') →
      (populateLoop ParseAccountID accountName (pre ++ v :: post) m).1 n = some r := by
  induction pre with
  | nil =>
    intro m _
    simp only [List.nil_append, populateLoop, hname, hr]
    rw [populateLoop_frame ParseAccountID accountName n post _ hpost]
    simp [mapSet]
  | cons u pre ih =>
    intro m hvalid
    have hrest : ∀ w ∈ pre, w.Name ≠ none →
        ∃ r', populateAccountDetails ParseAccountID accountName w = Except.ok r' :=
      fun w hw => hvalid w (List.mem_cons_of_mem _ hw)
    cases huname : u.Name with
    | none =>
      simp only [List.cons_append, populateLoop, huname]
      exact ih m hrest
    | some uName =>
      obtain ⟨r', hr'⟩ := hvalid u (List.mem_cons_self _ _) (by simp [huname])
      simp only [List.cons_append, populateLoop, huname, hr']
      exact ih _ hrest

/-- The record that populateAccountDetails returns is built from the raw
account. -/
theorem populateAccountDetails_builtFrom {P : Type}
    (ParseAccountID : String → Except Error AccountID) (accountName : String)
    (v : AzureSDK.Account P) (r : accountDetails P)
    (h : populateAccountDetails ParseAccountID accountName v = Except.ok r) :
    builtFrom ParseAccountID r v ∧ r.name = accountName ∧ r.accountKey = none := by
  unfold populateAccountDetails at h
  cases hid : v.ID with
  | none => simp [hid] at h
  | some accountId =>
    cases hparse : ParseAccountID accountId with
    | error e => simp [hid, hparse] at h
    | ok id =>
      simp only [hid, hparse, Except.ok.injEq] at h
      subst h
      exact ⟨⟨hid, ⟨id, hparse, rfl⟩, rfl⟩, rfl, rfl⟩

/-- populateAccountDetails succeeds on a raw account whose ID is present and
accepted by ParseAccountID. -/
theorem populateAccountDetails_ok {P : Type}
    (ParseAccountID : String → Except Error AccountID) (accountName : String)
    (v : AzureSDK.Account P) (accountId : String) (id : AccountID)
    (hid : v.ID = some accountId) (hparse : ParseAccountID accountId = Except.ok id) :
    ∃ r, populateAccountDetails ParseAccountID accountName v = Except.ok r := by
  simp [populateAccountDetails, hid, hparse]

/-- The value of FindAccount on a miss when List answers with a non-nil list and
the loop ends without error. -/
theorem FindAccount_miss_loop_done {P : Type}
    (ParseAccountID : String → Except Error AccountID) (client : Client P)
    (accountName : String) (s : State P) (accounts : AzureSDK.AccountListResult P)
    (value : List (AzureSDK.Account P))
    (hfree : s.accountsLock = false)
    (hmiss : s.storageAccountsCache accountName = none)
    (hlist : client.AccountsClient.List = Except.ok accounts)
    (hvalue : accounts.Value = some value)
    (hloop : (populateLoop ParseAccountID accountName value s.storageAccountsCache).2 = none) :
    FindAccount ParseAccountID client accountName s
      = some (((populateLoop ParseAccountID accountName value s.storageAccountsCache).1
                accountName, none),
          { s with
            storageAccountsCache :=
              (populateLoop ParseAccountID accountName value s.storageAccountsCache).1
            accountsLock := false
            remoteCalls := s.remoteCalls ++ [RemoteCall.List] }) := by
  simp only [FindAccount, hfree, hmiss, hlist, hvalue, Bool.false_eq_true, if_false]
  generalize populateLoop ParseAccountID accountName value s.storageAccountsCache = out at hloop
  obtain ⟨m, e⟩ := out
  simp only at hloop
  subst hloop
  simp only
  cases hm : m accountName with
  | some existing => rfl
  | none => rfl

/-- The loop never removes a key. -/
theorem populateLoop_keeps_keys {P : Type} (ParseAccountID : String → Except Error AccountID)
    (accountName : String) (k : String) (value : List (AzureSDK.Account P)) :
    ∀ m : String → Option (accountDetails P),
      (m k).isSome = true →
      ((populateLoop ParseAccountID accountName value m).1 k).isSome = true := by
  induction value with
  | nil => intro m h; exact h
  | cons v rest ih =>
    intro m h
    cases hname : v.Name with
    | none =>
      simp only [populateLoop, hname]
      exact ih m h
    | some vName =>
      cases hpop : populateAccountDetails ParseAccountID accountName v with
      | error err =>
        simp only [populateLoop, hname, hpop]
        exact h
      | ok account =>
        simp only [populateLoop, hname, hpop]
        apply ih
        by_cases hk : k = vName
        · simp [mapSet, hk]
        · simp [mapSet, hk, h]

/-- After a loop in which populateAccountDetails succeeds on every named account,
the name of every enumerated account is a key of the map. -/
theorem populateLoop_inserts {P : Type} (ParseAccountID : String → Except Error AccountID)
    (accountName : String) (n : String) (value : List (AzureSDK.Account P)) :
    ∀ m : String → Option (accountDetails P),
      (∀ v ∈ value, v.Name ≠ none →
        ∃ r, populateAccountDetails ParseAccountID accountName v = Except.ok r) →
      (∃ v ∈ value, v.Name = some n) →
      ((populateLoop ParseAccountID accountName value m).1 n).isSome = true := by
  induction value with
  | nil => intro m _ h; obtain ⟨v, hv, _⟩ := h; cases hv
  | cons u rest ih =>
    intro m hvalid hex
    have hrest : ∀ w ∈ rest, w.Name ≠ none →
        ∃ r, populateAccountDetails ParseAccountID accountName w = Except.ok r :=
      fun w hw => hvalid w (List.mem_cons_of_mem _ hw)
    obtain ⟨v, hv, hvn⟩ := hex
    cases huname : u.Name with
    | none =>
      simp only [populateLoop, huname]
      rcases List.mem_cons.mp hv with hvu | hvrest
      · subst hvu
        rw [huname] at hvn
        cases hvn
      · exact ih m hrest ⟨v, hvrest, hvn⟩
    | some uName =>
      obtain ⟨r, hr⟩ := hvalid u (List.mem_cons_self _ _) (by simp [huname])
      simp only [populateLoop, huname, hr]
      rcases List.mem_cons.mp hv with hvu | hvrest
      · subst hvu
        rw [huname] at hvn
        cases hvn
        apply populateLoop_keeps_keys
        simp [mapSet]
      · exact ih _ hrest ⟨v, hvrest, hvn⟩

/-! ## AccountKey -/

/-- C1 (the code departs from the claim): on a record without cached secret, with
the credential lock free and ListKeys answering with first key KEY123, AccountKey
stores KEY123 in the record but returns the pair (nil, nil) instead of the key. -/
theorem AccountKey_success_returns_nil :
    ∃ ad' s', AccountKey recordAcct1 (stubClient []) (State.init Unit)
        = some ((none, none), ad', s')
      ∧ ad'.accountKey = some "KEY123" :=
  ⟨_, _, rfl, rfl⟩

/-- C7 (the code departs from the claim): on a record whose secret is already
cached, called with the credential lock free, AccountKey returns the secret and
leaves the credential lock held. -/
theorem AccountKey_hit_keeps_lock :
    ∃ ad' s', AccountKey { recordAcct1 with accountKey := some "KEY123" } (stubClient [])
          (State.init Unit)
        = some ((some "KEY123", none), ad', s')
      ∧ (State.init Unit).credentialsLock = false
      ∧ s'.credentialsLock = true :=
  ⟨_, _, rfl, rfl, rfl⟩

/-! ## FindAccount: cache hit -/

/-- C3: when the registry lock is free and the name is in the map, FindAccount
returns the stored record with no error and the state after the call is the state
before it: the trace of remote calls has no new List call and the map is the
same. -/
theorem FindAccount_cache_hit {P : Type} (ParseAccountID : String → Except Error AccountID)
    (client : Client P) (accountName : String) (s : State P) (existing : accountDetails P)
    (hfree : s.accountsLock = false)
    (hhit : s.storageAccountsCache accountName = some existing) :
    FindAccount ParseAccountID client accountName s = some ((some existing, none), s) := by
  cases s with
  | mk cache aLock cLock calls =>
    simp only at hfree hhit
    subst hfree
    simp [FindAccount, hhit]

/-- C3 at a concrete input: acct1 is stored, the lock is free. -/
theorem FindAccount_cache_hit_witness :
    ({ State.init Unit with
        storageAccountsCache := mapSet (State.init Unit).storageAccountsCache "acct1" recordAcct1 }
      : State Unit).accountsLock = false
    ∧ mapSet (State.init Unit).storageAccountsCache "acct1" recordAcct1 "acct1" = some recordAcct1
    ∧ FindAccount stubParseAccountID (stubClient [])
        "acct1"
        { State.init Unit with
          storageAccountsCache := mapSet (State.init Unit).storageAccountsCache "acct1" recordAcct1 }
      = some ((some recordAcct1, none),
        { State.init Unit with
          storageAccountsCache :=
            mapSet (State.init Unit).storageAccountsCache "acct1" recordAcct1 }) :=
  ⟨rfl, rfl, FindAccount_cache_hit stubParseAccountID (stubClient []) "acct1" _ recordAcct1 rfl rfl⟩

/-! ## FindAccount: the name given to enumerated records -/

/-- C2 (the code departs from the claim): FindAccount for acct1 on the empty
registry, with List answering the single account acct2, reaches a state whose map
holds under key acct2 a record whose name field is acct1. -/
theorem FindAccount_stores_requested_name :
    ∃ s : State Unit, Reachable stubParseAccountID s
      ∧ ∃ r, s.storageAccountsCache "acct2" = some r ∧ r.name = "acct1" ∧ r.name ≠ "acct2" := by
  refine ⟨_, Reachable.findAccount
    (stubClient [{ ID := some idAcct2, Name := some "acct2", AccountProperties := none }])
    "acct1" (none, none) Reachable.init rfl, ?_⟩
  exact ⟨{ ID := idAcct2, ResourceGroup := "rg2", Properties := none, accountKey := none,
           name := "acct1" }, rfl, rfl, by decide⟩

/-! ## AddToCache -/

/-- C8: when the registry lock is free, the raw account has an ID and
ParseAccountID accepts it, AddToCache returns no error and the map then holds
under the account name the record with that name, the raw ID, the parsed resource
group, the raw properties and no cached secret, whatever was stored there before;
FindAccount of that name in the state after the call returns this record and
leaves the state as it is, so the trace gets no List call. -/
theorem AddToCache_valid_stores_record {P : Type}
    (ParseAccountID : String → Except Error AccountID) (accountName : String)
    (props : AzureSDK.Account P) (s : State P) (accountId : String) (id : AccountID)
    (hfree : s.accountsLock = false)
    (hid : props.ID = some accountId)
    (hparse : ParseAccountID accountId = Except.ok id) :
    ∃ s', AddToCache ParseAccountID accountName props s = some (none, s')
      ∧ s'.storageAccountsCache accountName
          = some { name := accountName
                   ID := accountId
                   ResourceGroup := id.ResourceGroup
                   Properties := props.AccountProperties
                   accountKey := none }
      ∧ ∀ client : Client P,
          FindAccount ParseAccountID client accountName s'
            = some ((some { name := accountName
                            ID := accountId
                            ResourceGroup := id.ResourceGroup
                            Properties := props.AccountProperties
                            accountKey := none }, none), s') := by
  refine ⟨{ s with
      storageAccountsCache := mapSet s.storageAccountsCache accountName
        { name := accountName
          ID := accountId
          ResourceGroup := id.ResourceGroup
          Properties := props.AccountProperties
          accountKey := none }
      accountsLock := false }, ?_, ?_, ?_⟩
  · simp [AddToCache, hfree, populateAccountDetails, hid, hparse]
  · simp [mapSet]
  · intro client
    simp [FindAccount, mapSet]

/-- C8 at a concrete input: acct1 with its resource ID is added to the empty
registry. -/
theorem AddToCache_valid_stores_record_witness :
    (State.init Unit).accountsLock = false
    ∧ (({ ID := some idAcct1, Name := some "acct1", AccountProperties := none }
          : AzureSDK.Account Unit).ID = some idAcct1)
    ∧ stubParseAccountID idAcct1 = Except.ok { ResourceGroup := "rg1" }
    ∧ ∃ s', AddToCache stubParseAccountID "acct1"
          { ID := some idAcct1, Name := some "acct1", AccountProperties := none }
          (State.init Unit) = some (none, s')
        ∧ s'.storageAccountsCache "acct1" = some recordAcct1
        ∧ FindAccount stubParseAccountID (stubClient []) "acct1" s'
            = some ((some recordAcct1, none), s') := by
  refine ⟨rfl, rfl, rfl, ?_⟩
  obtain ⟨s', h1, h2, h3⟩ := AddToCache_valid_stores_record stubParseAccountID "acct1"
    ({ ID := some idAcct1, Name := some "acct1", AccountProperties := none }
      : AzureSDK.Account Unit)
    (State.init Unit) idAcct1 { ResourceGroup := "rg1" } rfl rfl rfl
  exact ⟨s', h1, h2, h3 (stubClient [])⟩

/-- C9: when the registry lock is free, AddToCache returns, and it returns an
error exactly when the raw account has no ID or ParseAccountID rejects its ID;
whenever it returns an error, the state after the call, and so the map, is the
state before the call. -/
theorem AddToCache_error_iff_invalid {P : Type}
    (ParseAccountID : String → Except Error AccountID) (accountName : String)
    (props : AzureSDK.Account P) (s : State P)
    (hfree : s.accountsLock = false) :
    ∃ err s', AddToCache ParseAccountID accountName props s = some (err, s')
      ∧ (err ≠ none ↔
          (props.ID = none
            ∨ ∃ accountId e, props.ID = some accountId
                ∧ ParseAccountID accountId = Except.error e))
      ∧ (err ≠ none →
          s' = s ∧ s'.storageAccountsCache = s.storageAccountsCache) := by
  cases s with
  | mk cache aLock cLock calls =>
    simp only at hfree
    subst hfree
    cases hid : props.ID with
    | none =>
      exact ⟨some (Error.idWasNil accountName), _,
        by simp [AddToCache, populateAccountDetails, hid], by simp, fun _ => ⟨rfl, rfl⟩⟩
    | some accountId =>
      cases hparse : ParseAccountID accountId with
      | error e =>
        exact ⟨some (Error.parsingResourceID accountId e), _,
          by simp [AddToCache, populateAccountDetails, hid, hparse],
          by simp [hparse], fun _ => ⟨rfl, rfl⟩⟩
      | ok id =>
        exact ⟨none,
          { storageAccountsCache := mapSet cache accountName
              { name := accountName
                ID := accountId
                ResourceGroup := id.ResourceGroup
                Properties := props.AccountProperties
                accountKey := none }
            accountsLock := false
            credentialsLock := cLock
            remoteCalls := calls },
          by simp [AddToCache, populateAccountDetails, hid, hparse],
          by simp [hparse], fun h => absurd rfl h⟩

/-- C9 at a concrete input: a raw account without ID is added to a registry that
holds acct1; the call returns an error and the state is the one before. -/
theorem AddToCache_error_iff_invalid_witness :
    ({ State.init Unit with
        storageAccountsCache := mapSet (State.init Unit).storageAccountsCache "acct1" recordAcct1 }
      : State Unit).accountsLock = false
    ∧ ∃ err s', AddToCache stubParseAccountID "acct1"
          ({ ID := none, Name := some "acct1", AccountProperties := none }
            : AzureSDK.Account Unit)
          { State.init Unit with
            storageAccountsCache :=
              mapSet (State.init Unit).storageAccountsCache "acct1" recordAcct1 }
          = some (err, s')
        ∧ err ≠ none
        ∧ s'.storageAccountsCache "acct1" = some recordAcct1 := by
  refine ⟨rfl, ?_⟩
  obtain ⟨err, s', h1, h2, h3⟩ := AddToCache_error_iff_invalid stubParseAccountID "acct1"
    ({ ID := none, Name := some "acct1", AccountProperties := none } : AzureSDK.Account Unit)
    ({ State.init Unit with
        storageAccountsCache := mapSet (State.init Unit).storageAccountsCache "acct1" recordAcct1 }
      : State Unit) rfl
  have herr : err ≠ none := h2.mpr (Or.inl rfl)
  refine ⟨err, s', h1, herr, ?_⟩
  rw [(h3 herr).2]
  rfl

/-! ## RemoveAccountFromCache -/

/-- C10: when the registry lock is free, RemoveAccountFromCache returns; in the
state after it the name is absent from the map, every other key has the entry it
had, the map is the same map when the name was absent already, and the next
FindAccount of that name, whatever the remote client answers, returns after
appending one List call to the trace. -/
theorem RemoveAccountFromCache_removes {P : Type}
    (ParseAccountID : String → Except Error AccountID) (accountName : String) (s : State P)
    (hfree : s.accountsLock = false) :
    ∃ s1, RemoveAccountFromCache accountName s = some s1
      ∧ s1.storageAccountsCache accountName = none
      ∧ (∀ k, k ≠ accountName → s1.storageAccountsCache k = s.storageAccountsCache k)
      ∧ (s.storageAccountsCache accountName = none →
          s1.storageAccountsCache = s.storageAccountsCache)
      ∧ s1.remoteCalls = s.remoteCalls
      ∧ ∀ client : Client P, ∃ res s2,
          FindAccount ParseAccountID client accountName s1 = some (res, s2)
          ∧ s2.remoteCalls = s1.remoteCalls ++ [RemoteCall.List] := by
  refine ⟨{ s with
      storageAccountsCache := mapDelete s.storageAccountsCache accountName
      accountsLock := false },
    by simp [RemoveAccountFromCache, hfree], by simp [mapDelete], ?_, ?_, rfl, ?_⟩
  · intro k hk
    simp [mapDelete, hk]
  · intro habs
    funext k
    by_cases hk : k = accountName
    · subst hk
      simp [mapDelete, habs]
    · simp [mapDelete, hk]
  · intro client
    exact FindAccount_miss_calls_List ParseAccountID client accountName _ rfl
      (by simp [mapDelete])

/-! ## FindAccount: cache miss -/

/-- C4 as stated fails when two enumerated accounts bear one name: FindAccount
for acct1 on the empty registry, with List answering two valid accounts named
acct1 (the first in rg1, the second in rg2), leaves under acct1 a record that is
not built from the first of them. -/
theorem FindAccount_duplicate_name_keeps_last :
    ∃ res s', FindAccount stubParseAccountID (stubClient [rawAcct1, rawAcct1InRg2]) "acct1"
          (State.init Unit) = some (res, s')
      ∧ (∀ v ∈ [rawAcct1, rawAcct1InRg2], ∃ n accountId id,
          v.Name = some n ∧ v.ID = some accountId
            ∧ stubParseAccountID accountId = Except.ok id)
      ∧ rawAcct1 ∈ [rawAcct1, rawAcct1InRg2]
      ∧ rawAcct1.Name = some "acct1"
      ∧ ¬ ∃ r, s'.storageAccountsCache "acct1" = some r
            ∧ builtFrom stubParseAccountID r rawAcct1 := by
  refine ⟨_, _, rfl, ?_, List.mem_cons_self _ _, rfl, ?_⟩
  · intro v hv
    simp only [List.mem_cons, List.mem_singleton, List.not_mem_nil, or_false] at hv
    rcases hv with rfl | rfl
    · exact ⟨"acct1", idAcct1, { ResourceGroup := "rg1" }, rfl, rfl, rfl⟩
    · exact ⟨"acct1", idAcct1InRg2, { ResourceGroup := "rg2" }, rfl, rfl, rfl⟩
  · rintro ⟨r, hr, hid, -, -⟩
    have hr' : r = { ID := idAcct1InRg2, ResourceGroup := "rg2", Properties := none,
                     accountKey := none, name := "acct1" } :=
      (Option.some.inj hr).symm
    subst hr'
    exact absurd (Option.some.inj hid) (by decide)

/-- C4, amended: when the registry lock is free, the name is absent from the map
and List succeeds with accounts that all have a name and an ID accepted by
ParseAccountID, FindAccount returns after exactly one List call; the map then
holds, under the name of each returned account that no later returned account
shares its name with, a record built from that account, and when an account with
the requested name is among those returned the result is the record stored under
the requested name, with no error. -/
theorem FindAccount_miss_populates {P : Type}
    (ParseAccountID : String → Except Error AccountID) (client : Client P)
    (accountName : String) (s : State P) (accounts : AzureSDK.AccountListResult P)
    (hfree : s.accountsLock = false)
    (hmiss : s.storageAccountsCache accountName = none)
    (hlist : client.AccountsClient.List = Except.ok accounts)
    (hall : ∀ v ∈ returnedAccounts accounts, ∃ n accountId id,
      v.Name = some n ∧ v.ID = some accountId ∧ ParseAccountID accountId = Except.ok id) :
    ∃ res s', FindAccount ParseAccountID client accountName s = some (res, s')
      ∧ s'.remoteCalls = s.remoteCalls ++ [RemoteCall.List]
      ∧ (∀ pre v post n, returnedAccounts accounts = pre ++ v :: post →
          v.Name = some n → (∀ w ∈ post, w.Name ≠ some n) →
          ∃ r, s'.storageAccountsCache n = some r ∧ builtFrom ParseAccountID r v)
      ∧ ((∃ v ∈ returnedAccounts accounts, v.Name = some accountName) →
          ∃ r, res = (some r, none) ∧ s'.storageAccountsCache accountName = some r) := by
  cases hvalue : accounts.Value with
  | none =>
    have hret : returnedAccounts accounts = [] := by simp [returnedAccounts, hvalue]
    refine ⟨(none, some Error.accountsWasNil),
      { s with accountsLock := false, remoteCalls := s.remoteCalls ++ [RemoteCall.List] },
      ?_, rfl, ?_, ?_⟩
    · simp [FindAccount, hfree, hmiss, hlist, hvalue]
    · intro pre v post n hdec
      rw [hret] at hdec
      exact absurd hdec (by simp)
    · rintro ⟨v, hv, -⟩
      rw [hret] at hv
      cases hv
  | some value =>
    have hret : returnedAccounts accounts = value := by simp [returnedAccounts, hvalue]
    rw [hret] at hall
    rw [hret]
    have hvalid : ∀ v ∈ value, v.Name ≠ none →
        ∃ r, populateAccountDetails ParseAccountID accountName v = Except.ok r := by
      intro v hv _
      obtain ⟨n, accountId, id, -, hid, hparse⟩ := hall v hv
      exact populateAccountDetails_ok ParseAccountID accountName v accountId id hid hparse
    have hloop := populateLoop_no_error ParseAccountID accountName value
      s.storageAccountsCache hvalid
    refine ⟨_, _, FindAccount_miss_loop_done ParseAccountID client accountName s accounts value
      hfree hmiss hlist hvalue hloop, rfl, ?_, ?_⟩
    · intro pre v post n hdec hname hpost
      have hv : v ∈ value := by rw [hdec]; simp
      obtain ⟨r, hr⟩ := hvalid v hv (by simp [hname])
      refine ⟨r, ?_, (populateAccountDetails_builtFrom ParseAccountID accountName v r hr).1⟩
      simp only [hdec]
      apply populateLoop_last ParseAccountID accountName v post n r hname hpost hr pre
      intro w hw
      exact hvalid w (by rw [hdec]; simp [hw])
    · intro hex
      have hsome := populateLoop_inserts ParseAccountID accountName accountName value
        s.storageAccountsCache hvalid hex
      obtain ⟨r, hr⟩ := Option.isSome_iff_exists.mp hsome
      exact ⟨r, by simp only [hr], hr⟩

/-- C4 amended, at a concrete input: FindAccount for acct1 on the empty registry
with List answering acct2 and acct1. -/
theorem FindAccount_miss_populates_witness :
    (State.init Unit).accountsLock = false
    ∧ (State.init Unit).storageAccountsCache "acct1" = none
    ∧ (stubClient [rawAcct2, rawAcct1]).AccountsClient.List
        = Except.ok { Value := some [rawAcct2, rawAcct1] }
    ∧ (∀ v ∈ returnedAccounts { Value := some [rawAcct2, rawAcct1] }, ∃ n accountId id,
        v.Name = some n ∧ v.ID = some accountId
          ∧ stubParseAccountID accountId = Except.ok id)
    ∧ ∃ res s', FindAccount stubParseAccountID (stubClient [rawAcct2, rawAcct1]) "acct1"
          (State.init Unit) = some (res, s')
        ∧ s'.remoteCalls = (State.init Unit).remoteCalls ++ [RemoteCall.List]
        ∧ (∃ r, s'.storageAccountsCache "acct2" = some r
            ∧ builtFrom stubParseAccountID r rawAcct2)
        ∧ ∃ r, res = (some r, none) ∧ s'.storageAccountsCache "acct1" = some r := by
  have hall : ∀ v ∈ returnedAccounts { Value := some [rawAcct2, rawAcct1] },
      ∃ n accountId id, v.Name = some n ∧ v.ID = some accountId
        ∧ stubParseAccountID accountId = Except.ok id := by
    intro v hv
    simp only [returnedAccounts, Option.getD_some, List.mem_cons, List.mem_singleton,
      List.not_mem_nil, or_false] at hv
    rcases hv with rfl | rfl
    · exact ⟨"acct2", idAcct2, { ResourceGroup := "rg2" }, rfl, rfl, rfl⟩
    · exact ⟨"acct1", idAcct1, { ResourceGroup := "rg1" }, rfl, rfl, rfl⟩
  refine ⟨rfl, rfl, rfl, hall, ?_⟩
  obtain ⟨res, s', h1, h2, h3, h4⟩ := FindAccount_miss_populates stubParseAccountID
    (stubClient [rawAcct2, rawAcct1]) "acct1" (State.init Unit)
    { Value := some [rawAcct2, rawAcct1] } rfl rfl rfl hall
  refine ⟨res, s', h1, h2, ?_, ?_⟩
  · exact h3 [] rawAcct2 [rawAcct1] "acct2" rfl rfl (by
      intro w hw
      simp only [List.mem_singleton] at hw
      subst hw
      decide)
  · exact h4 ⟨rawAcct1, by simp [returnedAccounts], rfl⟩

/-- C5 as stated fails on two successful List answers that hold no account named
acct1: with a nil Value, and with an account named acct2 that has no ID,
FindAccount for acct1 on the empty registry returns an error, not (nil, nil). -/
theorem FindAccount_absent_name_can_error :
    (∃ s', FindAccount stubParseAccountID nilValueClient "acct1" (State.init Unit)
        = some ((none, some Error.accountsWasNil), s'))
    ∧ (∃ s', FindAccount stubParseAccountID (stubClient [rawAcct2NoID]) "acct1"
          (State.init Unit)
        = some ((none, some (Error.idWasNil "acct1")), s'))
    ∧ ∀ v ∈ [rawAcct2NoID], v.Name ≠ some "acct1" := by
  refine ⟨⟨_, rfl⟩, ⟨_, rfl⟩, ?_⟩
  intro v hv
  simp only [List.mem_singleton] at hv
  subst hv
  decide

/-- C5, amended: when the registry lock is free, the name is absent from the map
and List succeeds with a non-nil list in which every named account has an ID
accepted by ParseAccountID and no account has the requested name, FindAccount
returns (nil, nil): no record and no error. -/
theorem FindAccount_not_found {P : Type}
    (ParseAccountID : String → Except Error AccountID) (client : Client P)
    (accountName : String) (s : State P) (accounts : AzureSDK.AccountListResult P)
    (value : List (AzureSDK.Account P))
    (hfree : s.accountsLock = false)
    (hmiss : s.storageAccountsCache accountName = none)
    (hlist : client.AccountsClient.List = Except.ok accounts)
    (hvalue : accounts.Value = some value)
    (hvalid : ∀ v ∈ value, v.Name ≠ none → ∃ accountId id,
      v.ID = some accountId ∧ ParseAccountID accountId = Except.ok id)
    (hnot : ∀ v ∈ value, v.Name ≠ some accountName) :
    ∃ s', FindAccount ParseAccountID client accountName s = some ((none, none), s') := by
  have hvalid' : ∀ v ∈ value, v.Name ≠ none →
      ∃ r, populateAccountDetails ParseAccountID accountName v = Except.ok r := by
    intro v hv hn
    obtain ⟨accountId, id, hid, hparse⟩ := hvalid v hv hn
    exact populateAccountDetails_ok ParseAccountID accountName v accountId id hid hparse
  have hloop := populateLoop_no_error ParseAccountID accountName value
    s.storageAccountsCache hvalid'
  have hframe := populateLoop_frame ParseAccountID accountName accountName value
    s.storageAccountsCache hnot
  refine ⟨{ s with
      storageAccountsCache :=
        (populateLoop ParseAccountID accountName value s.storageAccountsCache).1
      accountsLock := false
      remoteCalls := s.remoteCalls ++ [RemoteCall.List] }, ?_⟩
  rw [FindAccount_miss_loop_done ParseAccountID client accountName s accounts value
    hfree hmiss hlist hvalue hloop, hframe, hmiss]

/-- C5 amended, at a concrete input: FindAccount for acct1 on the empty registry
with List answering the single account acct2. -/
theorem FindAccount_not_found_witness :
    (State.init Unit).accountsLock = false
    ∧ (State.init Unit).storageAccountsCache "acct1" = none
    ∧ (stubClient [rawAcct2]).AccountsClient.List = Except.ok { Value := some [rawAcct2] }
    ∧ (∀ v ∈ [rawAcct2], v.Name ≠ none → ∃ accountId id,
        v.ID = some accountId ∧ stubParseAccountID accountId = Except.ok id)
    ∧ (∀ v ∈ [rawAcct2], v.Name ≠ some "acct1")
    ∧ ∃ s', FindAccount stubParseAccountID (stubClient [rawAcct2]) "acct1" (State.init Unit)
        = some ((none, none), s') := by
  have hvalid : ∀ v ∈ [rawAcct2], v.Name ≠ none → ∃ accountId id,
      v.ID = some accountId ∧ stubParseAccountID accountId = Except.ok id := by
    intro v hv _
    simp only [List.mem_singleton] at hv
    subst hv
    exact ⟨idAcct2, { ResourceGroup := "rg2" }, rfl, rfl⟩
  have hnot : ∀ v ∈ [rawAcct2], v.Name ≠ some "acct1" := by
    intro v hv
    simp only [List.mem_singleton] at hv
    subst hv
    decide
  exact ⟨rfl, rfl, rfl, hvalid, hnot,
    FindAccount_not_found stubParseAccountID (stubClient [rawAcct2]) "acct1" (State.init Unit)
      { Value := some [rawAcct2] } [rawAcct2] rfl rfl rfl rfl hvalid hnot⟩

/-- C10 at a concrete input: acct1 is stored and then removed. -/
theorem RemoveAccountFromCache_removes_witness :
    ({ State.init Unit with
        storageAccountsCache := mapSet (State.init Unit).storageAccountsCache "acct1" recordAcct1 }
      : State Unit).accountsLock = false
    ∧ ∃ s1, RemoveAccountFromCache "acct1"
          ({ State.init Unit with
              storageAccountsCache :=
                mapSet (State.init Unit).storageAccountsCache "acct1" recordAcct1 }
            : State Unit) = some s1
        ∧ s1.storageAccountsCache "acct1" = none
        ∧ ∃ res s2, FindAccount stubParseAccountID (stubClient [rawAcct1]) "acct1" s1
            = some (res, s2)
          ∧ s2.remoteCalls = s1.remoteCalls ++ [RemoteCall.List] := by
  refine ⟨rfl, ?_⟩
  obtain ⟨s1, h1, h2, -, -, -, h6⟩ := RemoveAccountFromCache_removes stubParseAccountID "acct1"
    ({ State.init Unit with
        storageAccountsCache := mapSet (State.init Unit).storageAccountsCache "acct1" recordAcct1 }
      : State Unit) rfl
  exact ⟨s1, h1, h2, h6 (stubClient [rawAcct1])⟩

/-! ## AccountKey: resolving twice -/

/-- C6 as stated fails on a record whose secret is already cached: with the
credential lock free and ListKeys ready to answer KEY123, the first of two
successive calls returns the cached OLDKEY without any ListKeys call, and the
second call never returns, so ListKeys is not called once and KEY123 is not
returned. -/
theorem AccountKey_twice_on_resolved_record :
    ∃ ad1 s1, AccountKey { recordAcct1 with accountKey := some "OLDKEY" } (stubClient [])
          (State.init Unit) = some ((some "OLDKEY", none), ad1, s1)
      ∧ s1.remoteCalls = []
      ∧ AccountKey ad1 (stubClient []) s1 = none :=
  ⟨_, _, rfl, rfl, rfl⟩

/-- C6, amended: for a record whose cached secret is absent, called with the
credential lock free, and a ListKeys that succeeds for this record with a first
key of value k, two successive AccountKey calls both return, the trace grows by
exactly one ListKeys call over the two, and the second call returns k with no
error; and any call, with the credential lock free, on a record whose cached
secret is set returns that secret with no error, leaves the record as it is and
adds no call to the trace. -/
theorem AccountKey_resolves_once {P : Type} (ad : accountDetails P) (client : Client P)
    (s : State P) (key : AzureSDK.AccountKey) (rest : List AzureSDK.AccountKey) (k : String)
    (hfree : s.credentialsLock = false)
    (habsent : ad.accountKey = none)
    (hkeys : client.AccountsClient.ListKeys ad.ResourceGroup ad.name
      = Except.ok { Keys := some (key :: rest) })
    (hk : key.Value = some k) :
    (∃ res1 ad1 s1 ad2 s2,
        AccountKey ad client s = some (res1, ad1, s1)
        ∧ AccountKey ad1 client s1 = some ((some k, none), ad2, s2)
        ∧ s2.remoteCalls
            = s.remoteCalls ++ [RemoteCall.ListKeys ad.ResourceGroup ad.name]
        ∧ ad2.accountKey = some k)
    ∧ ∀ (ad0 : accountDetails P) (s0 : State P) (secret : String),
        s0.credentialsLock = false → ad0.accountKey = some secret →
        ∃ s0', AccountKey ad0 client s0 = some ((some secret, none), ad0, s0')
          ∧ s0'.remoteCalls = s0.remoteCalls := by
  constructor
  · refine ⟨(none, none), { ad with accountKey := some k },
      { s with
        credentialsLock := false
        remoteCalls := s.remoteCalls ++ [RemoteCall.ListKeys ad.ResourceGroup ad.name] },
      { ad with accountKey := some k },
      { s with
        credentialsLock := true
        remoteCalls := s.remoteCalls ++ [RemoteCall.ListKeys ad.ResourceGroup ad.name] },
      ?_, ?_, rfl, rfl⟩
    · simp [AccountKey, hfree, habsent, hkeys, hk]
    · simp [AccountKey]
  · intro ad0 s0 secret hfree0 hset
    exact ⟨{ s0 with credentialsLock := true }, by simp [AccountKey, hfree0, hset], rfl⟩

/-- C6 amended, at a concrete input: the record of acct1 without cached secret,
the lock free, ListKeys answering KEY123. -/
theorem AccountKey_resolves_once_witness :
    (State.init Unit).credentialsLock = false
    ∧ recordAcct1.accountKey = none
    ∧ (stubClient []).AccountsClient.ListKeys recordAcct1.ResourceGroup recordAcct1.name
        = Except.ok { Keys := some [{ KeyName := some "key1", Value := some "KEY123" }] }
    ∧ ∃ res1 ad1 s1 ad2 s2,
        AccountKey recordAcct1 (stubClient []) (State.init Unit) = some (res1, ad1, s1)
        ∧ AccountKey ad1 (stubClient []) s1 = some ((some "KEY123", none), ad2, s2)
        ∧ s2.remoteCalls = (State.init Unit).remoteCalls ++ [RemoteCall.ListKeys "rg1" "acct1"]
        ∧ ad2.accountKey = some "KEY123" :=
  ⟨rfl, rfl, rfl,
    (AccountKey_resolves_once recordAcct1 (stubClient []) (State.init Unit)
      { KeyName := some "key1", Value := some "KEY123" } [] "KEY123" rfl rfl rfl rfl).1⟩

/-! ## FindAccount: repeated lookup and remote failure -/

/-- The value of FindAccount on a name that is in the map, with the registry lock
free. -/
theorem FindAccount_of_stored {P : Type} (ParseAccountID : String → Except Error AccountID)
    (client : Client P) (accountName : String) (s : State P) (existing : accountDetails P)
    (hfree : s.accountsLock = false)
    (hhit : s.storageAccountsCache accountName = some existing) :
    FindAccount ParseAccountID client accountName s = some ((some existing, none), s) := by
  cases s with
  | mk cache aLock cLock calls =>
    simp only at hfree hhit
    subst hfree
    simp [FindAccount, hhit]

/-- A record that FindAccount returns is the record stored under the requested
name in the state after the call, it comes with no error, and the registry lock is
free again. -/
theorem FindAccount_returned_is_stored {P : Type}
    (ParseAccountID : String → Except Error AccountID) (client : Client P)
    (accountName : String) (s s' : State P) (r : accountDetails P) (err : Option Error)
    (h : FindAccount ParseAccountID client accountName s = some ((some r, err), s')) :
    s'.accountsLock = false ∧ s'.storageAccountsCache accountName = some r ∧ err = none := by
  unfold FindAccount at h
  split at h
  · cases h
  · simp only at h
    split at h
    · next existing hc =>
      simp only [Option.some.injEq, Prod.mk.injEq] at h
      obtain ⟨⟨h1, h2⟩, h3⟩ := h
      subst h1 h2 h3
      exact ⟨rfl, hc, rfl⟩
    · split at h
      · simp at h
      · split at h
        · simp at h
        · split at h
          · simp at h
          · split at h
            · next m _ existing hm =>
              simp only [Option.some.injEq, Prod.mk.injEq] at h
              obtain ⟨⟨h1, h2⟩, h3⟩ := h
              subst h1 h2 h3
              exact ⟨rfl, hm, rfl⟩
            · simp at h

/-- C11: if FindAccount of a name returns a record, then FindAccount of the same
name in the state after that call, with any remote client, returns the same
record with no error and leaves the state as it is, so the trace of remote calls
gets no List call. -/
theorem FindAccount_twice_same_record {P : Type}
    (ParseAccountID : String → Except Error AccountID) (client : Client P)
    (accountName : String) (s s' : State P) (r : accountDetails P) (err : Option Error)
    (h : FindAccount ParseAccountID client accountName s = some ((some r, err), s')) :
    ∀ client' : Client P,
      FindAccount ParseAccountID client' accountName s' = some ((some r, none), s') := by
  intro client'
  obtain ⟨hfree, hstored, -⟩ :=
    FindAccount_returned_is_stored ParseAccountID client accountName s s' r err h
  exact FindAccount_of_stored ParseAccountID client' accountName s' r hfree hstored

/-- C11 at a concrete input: acct1 is found through an enumeration on the empty
registry, and found again while the remote List would fail. -/
theorem FindAccount_twice_same_record_witness :
    FindAccount stubParseAccountID (stubClient [rawAcct1]) "acct1" (State.init Unit)
      = some ((some recordAcct1, none),
          { State.init Unit with
            storageAccountsCache :=
              mapSet (State.init Unit).storageAccountsCache "acct1" recordAcct1
            remoteCalls := [RemoteCall.List] })
    ∧ FindAccount stubParseAccountID failingListClient "acct1"
        { State.init Unit with
          storageAccountsCache :=
            mapSet (State.init Unit).storageAccountsCache "acct1" recordAcct1
          remoteCalls := [RemoteCall.List] }
      = some ((some recordAcct1, none),
          { State.init Unit with
            storageAccountsCache :=
              mapSet (State.init Unit).storageAccountsCache "acct1" recordAcct1
            remoteCalls := [RemoteCall.List] }) :=
  ⟨rfl, FindAccount_twice_same_record stubParseAccountID (stubClient [rawAcct1]) "acct1"
    (State.init Unit) _ recordAcct1 none rfl failingListClient⟩

/-- C12: when the registry lock is free, the name is absent from the map and List
fails, FindAccount returns no record and an error that wraps the remote error; the
trace grows by exactly one List call and the map is the map before the call. -/
theorem FindAccount_list_failure {P : Type}
    (ParseAccountID : String → Except Error AccountID) (client : Client P)
    (accountName : String) (s : State P) (e : Error)
    (hfree : s.accountsLock = false)
    (hmiss : s.storageAccountsCache accountName = none)
    (hlist : client.AccountsClient.List = Except.error e) :
    ∃ s', FindAccount ParseAccountID client accountName s
        = some ((none, some (Error.retrievingAccounts e)), s')
      ∧ s'.remoteCalls = s.remoteCalls ++ [RemoteCall.List]
      ∧ s'.storageAccountsCache = s.storageAccountsCache :=
  ⟨{ s with accountsLock := false, remoteCalls := s.remoteCalls ++ [RemoteCall.List] },
    by simp [FindAccount, hfree, hmiss, hlist], rfl, rfl⟩

/-- C12 at a concrete input: FindAccount for acct2 on a registry that holds acct1,
with a List that fails. -/
theorem FindAccount_list_failure_witness :
    ({ State.init Unit with
        storageAccountsCache := mapSet (State.init Unit).storageAccountsCache "acct1" recordAcct1 }
      : State Unit).accountsLock = false
    ∧ mapSet (State.init Unit).storageAccountsCache "acct1" recordAcct1 "acct2" = none
    ∧ failingListClient.AccountsClient.List = Except.error (Error.external "remote failure")
    ∧ ∃ s', FindAccount stubParseAccountID failingListClient "acct2"
          { State.init Unit with
            storageAccountsCache :=
              mapSet (State.init Unit).storageAccountsCache "acct1" recordAcct1 }
        = some ((none, some (Error.retrievingAccounts (Error.external "remote failure"))), s')
      ∧ s'.remoteCalls = [] ++ [RemoteCall.List]
      ∧ s'.storageAccountsCache
          = mapSet (State.init Unit).storageAccountsCache "acct1" recordAcct1 :=
  ⟨rfl, rfl, rfl,
    FindAccount_list_failure stubParseAccountID failingListClient "acct2"
      ({ State.init Unit with
          storageAccountsCache :=
            mapSet (State.init Unit).storageAccountsCache "acct1" recordAcct1 } : State Unit)
      (Error.external "remote failure") rfl rfl rfl⟩

/-! ## AccountKey: failures and frame -/

/-- C13: for a record without cached secret, called with the credential lock free,
AccountKey returns no key and an error when ListKeys fails and when its answer has
no usable key (nil key list, empty key list, or a nil value on the first key); the
record after the call still has no cached secret. -/
theorem AccountKey_failure_keeps_absent {P : Type} (ad : accountDetails P) (client : Client P)
    (s : State P)
    (hfree : s.credentialsLock = false)
    (habsent : ad.accountKey = none)
    (hbad : (∃ e, client.AccountsClient.ListKeys ad.ResourceGroup ad.name = Except.error e)
      ∨ ∃ props, client.AccountsClient.ListKeys ad.ResourceGroup ad.name = Except.ok props
          ∧ (props.Keys = none ∨ props.Keys = some []
              ∨ ∃ key rest, props.Keys = some (key :: rest) ∧ key.Value = none)) :
    ∃ err ad' s', AccountKey ad client s = some ((none, some err), ad', s')
      ∧ ad'.accountKey = none := by
  rcases hbad with ⟨e, he⟩ | ⟨props, hok, hnil | hempty | ⟨key, rest, hcons, hval⟩⟩
  · exact ⟨Error.listingKeys ad.name ad.ResourceGroup e, ad,
      { s with
        credentialsLock := false
        remoteCalls := s.remoteCalls ++ [RemoteCall.ListKeys ad.ResourceGroup ad.name] },
      by simp [AccountKey, hfree, habsent, he], habsent⟩
  · exact ⟨Error.keysWereNil ad.name ad.ResourceGroup, ad,
      { s with
        credentialsLock := false
        remoteCalls := s.remoteCalls ++ [RemoteCall.ListKeys ad.ResourceGroup ad.name] },
      by simp [AccountKey, hfree, habsent, hok, hnil], habsent⟩
  · exact ⟨Error.keysWereNil ad.name ad.ResourceGroup, ad,
      { s with
        credentialsLock := false
        remoteCalls := s.remoteCalls ++ [RemoteCall.ListKeys ad.ResourceGroup ad.name] },
      by simp [AccountKey, hfree, habsent, hok, hempty], habsent⟩
  · exact ⟨Error.keysWereNil ad.name ad.ResourceGroup, ad,
      { s with
        credentialsLock := false
        remoteCalls := s.remoteCalls ++ [RemoteCall.ListKeys ad.ResourceGroup ad.name] },
      by simp [AccountKey, hfree, habsent, hok, hcons, hval], habsent⟩

/-- C13 at a concrete input: the record of acct1 without cached secret, the lock
free, ListKeys answering a key whose value is nil. -/
theorem AccountKey_failure_keeps_absent_witness :
    (State.init Unit).credentialsLock = false
    ∧ recordAcct1.accountKey = none
    ∧ (keysClient (Except.ok { Keys := some [{ KeyName := some "key1", Value := none }] })
        ).AccountsClient.ListKeys recordAcct1.ResourceGroup recordAcct1.name
        = Except.ok { Keys := some [{ KeyName := some "key1", Value := none }] }
    ∧ ∃ err ad' s',
        AccountKey recordAcct1
          (keysClient (Except.ok { Keys := some [{ KeyName := some "key1", Value := none }] }))
          (State.init Unit) = some ((none, some err), ad', s')
        ∧ ad'.accountKey = none :=
  ⟨rfl, rfl, rfl,
    AccountKey_failure_keeps_absent recordAcct1
      (keysClient (Except.ok { Keys := some [{ KeyName := some "key1", Value := none }] }))
      (State.init Unit) rfl rfl
      (Or.inr ⟨_, rfl, Or.inr (Or.inr ⟨_, _, rfl, rfl⟩)⟩)⟩

/-- C14: called with the credential lock free, AccountKey returns, whatever
ListKeys answers, and the record after the call has the ID, resource group, name
and properties of the record before it; a cached secret that was present before
the call is present with the same value after it. -/
theorem AccountKey_keeps_record_fields {P : Type} (ad : accountDetails P) (client : Client P)
    (s : State P)
    (hfree : s.credentialsLock = false) :
    ∃ res ad' s', AccountKey ad client s = some (res, ad', s')
      ∧ ad'.ID = ad.ID
      ∧ ad'.ResourceGroup = ad.ResourceGroup
      ∧ ad'.name = ad.name
      ∧ ad'.Properties = ad.Properties
      ∧ ∀ k, ad.accountKey = some k → ad'.accountKey = some k := by
  simp only [AccountKey, hfree, Bool.false_eq_true, if_false]
  split
  · exact ⟨_, _, _, rfl, rfl, rfl, rfl, rfl, fun _ h => h⟩
  · next habsent =>
    split
    · exact ⟨_, _, _, rfl, rfl, rfl, rfl, rfl, fun _ h => h⟩
    · split
      · exact ⟨_, _, _, rfl, rfl, rfl, rfl, rfl, fun _ h => h⟩
      · exact ⟨_, _, _, rfl, rfl, rfl, rfl, rfl, fun _ h => h⟩
      · split
        · exact ⟨_, _, _, rfl, rfl, rfl, rfl, rfl, fun _ h => h⟩
        · exact ⟨_, _, _, rfl, rfl, rfl, rfl, rfl,
            fun k h => by rw [habsent] at h; cases h⟩

/-- C14 at a concrete input: a record of acct1 with cached secret OLDKEY, the lock
free, ListKeys ready to answer KEY123. -/
theorem AccountKey_keeps_record_fields_witness :
    (State.init Unit).credentialsLock = false
    ∧ ∃ res ad' s',
        AccountKey { recordAcct1 with accountKey := some "OLDKEY" } (stubClient [])
          (State.init Unit) = some (res, ad', s')
        ∧ ad'.ID = idAcct1
        ∧ ad'.ResourceGroup = "rg1"
        ∧ ad'.name = "acct1"
        ∧ ad'.Properties = none
        ∧ ad'.accountKey = some "OLDKEY" := by
  refine ⟨rfl, ?_⟩
  obtain ⟨res, ad', s', h, h1, h2, h3, h4, h5⟩ := AccountKey_keeps_record_fields
    ({ recordAcct1 with accountKey := some "OLDKEY" } : accountDetails Unit) (stubClient [])
    (State.init Unit) rfl
  exact ⟨res, ad', s', h, h1, h2, h3, h4, h5 "OLDKEY" rfl⟩

/-! ## The stored copy never gets a secret -/

/-- The loop keeps the property that no stored record has a cached secret. -/
theorem populateLoop_no_secret {P : Type} (ParseAccountID : String → Except Error AccountID)
    (accountName : String) (value : List (AzureSDK.Account P)) :
    ∀ m : String → Option (accountDetails P),
      (∀ k r, m k = some r → r.accountKey = none) →
      ∀ k r, (populateLoop ParseAccountID accountName value m).1 k = some r →
        r.accountKey = none := by
  induction value with
  | nil => intro m hm k r h; exact hm k r h
  | cons v rest ih =>
    intro m hm
    cases hname : v.Name with
    | none =>
      simp only [populateLoop, hname]
      exact ih m hm
    | some vName =>
      cases hpop : populateAccountDetails ParseAccountID accountName v with
      | error err =>
        simp only [populateLoop, hname, hpop]
        exact hm
      | ok account =>
        simp only [populateLoop, hname, hpop]
        apply ih
        intro k r hk
        by_cases hkv : k = vName
        · simp only [mapSet, hkv, if_true, Option.some.injEq] at hk
          subst hk
          exact (populateAccountDetails_builtFrom ParseAccountID accountName v account hpop).2.2
        · simp only [mapSet, hkv, if_false] at hk
          exact hm k r hk

/-- The map after a call of FindAccount that returns is the map before it or the
map that the loop leaves for some list of accounts. -/
theorem FindAccount_cache_cases {P : Type}
    (ParseAccountID : String → Except Error AccountID) (client : Client P)
    (accountName : String) (s s' : State P) (res : Option (accountDetails P) × Option Error)
    (h : FindAccount ParseAccountID client accountName s = some (res, s')) :
    s'.storageAccountsCache = s.storageAccountsCache
      ∨ ∃ value, s'.storageAccountsCache
          = (populateLoop ParseAccountID accountName value s.storageAccountsCache).1 := by
  unfold FindAccount at h
  split at h
  · cases h
  · simp only at h
    split at h
    · simp only [Option.some.injEq, Prod.mk.injEq] at h
      obtain ⟨-, h3⟩ := h
      subst h3
      exact Or.inl rfl
    · split at h
      · simp only [Option.some.injEq, Prod.mk.injEq] at h
        obtain ⟨-, h3⟩ := h
        subst h3
        exact Or.inl rfl
      · split at h
        · simp only [Option.some.injEq, Prod.mk.injEq] at h
          obtain ⟨-, h3⟩ := h
          subst h3
          exact Or.inl rfl
        · next value _ =>
          split at h
          · next m err hloop =>
            simp only [Option.some.injEq, Prod.mk.injEq] at h
            obtain ⟨-, h3⟩ := h
            subst h3
            exact Or.inr ⟨value, by simp only [hloop]⟩
          · next m hloop =>
            split at h
            · simp only [Option.some.injEq, Prod.mk.injEq] at h
              obtain ⟨-, h3⟩ := h
              subst h3
              exact Or.inr ⟨value, by simp only [hloop]⟩
            · simp only [Option.some.injEq, Prod.mk.injEq] at h
              obtain ⟨-, h3⟩ := h
              subst h3
              exact Or.inr ⟨value, by simp only [hloop]⟩

/-- A call of AccountKey that returns leaves the map as it is. -/
theorem AccountKey_keeps_cache {P : Type} (ad ad' : accountDetails P) (client : Client P)
    (s s' : State P) (res : Option String × Option Error)
    (h : AccountKey ad client s = some (res, ad', s')) :
    s'.storageAccountsCache = s.storageAccountsCache := by
  unfold AccountKey at h
  split at h
  · cases h
  · simp only at h
    split at h
    · simp only [Option.some.injEq, Prod.mk.injEq] at h
      obtain ⟨-, -, h3⟩ := h
      subst h3
      rfl
    · split at h
      · simp only [Option.some.injEq, Prod.mk.injEq] at h
        obtain ⟨-, -, h3⟩ := h
        subst h3
        rfl
      · split at h
        · simp only [Option.some.injEq, Prod.mk.injEq] at h
          obtain ⟨-, -, h3⟩ := h
          subst h3
          rfl
        · simp only [Option.some.injEq, Prod.mk.injEq] at h
          obtain ⟨-, -, h3⟩ := h
          subst h3
          rfl
        · split at h
          · simp only [Option.some.injEq, Prod.mk.injEq] at h
            obtain ⟨-, -, h3⟩ := h
            subst h3
            rfl
          · simp only [Option.some.injEq, Prod.mk.injEq] at h
            obtain ⟨-, -, h3⟩ := h
            subst h3
            rfl

/-- In every state reachable through the four operations, no stored record has a
cached secret. -/
theorem ReachableWithKeys_no_secret {P : Type}
    (ParseAccountID : String → Except Error AccountID) (s : State P)
    (hreach : ReachableWithKeys ParseAccountID s) :
    ∀ k r, s.storageAccountsCache k = some r → r.accountKey = none := by
  induction hreach with
  | init => intro k r h; cases h
  | @addToCache s s' accountName props err _ hstep ih =>
    unfold AddToCache at hstep
    split at hstep
    · cases hstep
    · simp only at hstep
      split at hstep
      · simp only [Option.some.injEq, Prod.mk.injEq] at hstep
        obtain ⟨-, h3⟩ := hstep
        subst h3
        exact ih
      · next account hpop =>
        simp only [Option.some.injEq, Prod.mk.injEq] at hstep
        obtain ⟨-, h3⟩ := hstep
        subst h3
        intro k r hk
        by_cases hkv : k = accountName
        · simp only [mapSet, hkv, if_true, Option.some.injEq] at hk
          subst hk
          exact (populateAccountDetails_builtFrom ParseAccountID accountName props account
            hpop).2.2
        · simp only [mapSet, hkv, if_false] at hk
          exact ih k r hk
  | @removeAccountFromCache s s' accountName _ hstep ih =>
    unfold RemoveAccountFromCache at hstep
    split at hstep
    · cases hstep
    · simp only [Option.some.injEq] at hstep
      subst hstep
      intro k r hk
      by_cases hkv : k = accountName
      · simp [mapDelete, hkv] at hk
      · simp only [mapDelete, hkv, if_false] at hk
        exact ih k r hk
  | @findAccount s s' client accountName res _ hstep ih =>
    rcases FindAccount_cache_cases ParseAccountID client accountName s s' res hstep with
      hsame | ⟨value, hloop⟩
    · rw [hsame]
      exact ih
    · rw [hloop]
      exact populateLoop_no_secret ParseAccountID accountName value s.storageAccountsCache ih
  | @accountKey s s' ad ad' client res _ hstep ih =>
    rw [AccountKey_keeps_cache ad ad' client s s' res hstep]
    exact ih

/-- C15: in every state reachable from the initial state through AddToCache,
RemoveAccountFromCache, FindAccount and AccountKey on records held by callers,
every record stored in the map has no cached secret, and every record that
FindAccount returns from such a state has no cached secret. -/
theorem stored_copy_never_resolved {P : Type}
    (ParseAccountID : String → Except Error AccountID) (s : State P)
    (hreach : ReachableWithKeys ParseAccountID s) :
    (∀ k r, s.storageAccountsCache k = some r → r.accountKey = none)
    ∧ ∀ (client : Client P) (accountName : String) (r : accountDetails P)
        (err : Option Error) (s' : State P),
        FindAccount ParseAccountID client accountName s = some ((some r, err), s') →
        r.accountKey = none := by
  refine ⟨ReachableWithKeys_no_secret ParseAccountID s hreach, ?_⟩
  intro client accountName r err s' h
  have hreach' : ReachableWithKeys ParseAccountID s' :=
    ReachableWithKeys.findAccount client accountName (some r, err) hreach h
  have hstored :=
    (FindAccount_returned_is_stored ParseAccountID client accountName s s' r err h).2.1
  exact ReachableWithKeys_no_secret ParseAccountID s' hreach' accountName r hstored

/-- C15 at a concrete run: acct1 is added, found, and its secret resolved on the
returned copy; the stored record still has no cached secret, while the copy has
one. -/
theorem stored_copy_never_resolved_witness :
    ReachableWithKeys stubParseAccountID stateAfterResolve
    ∧ (∃ ad', AccountKey recordAcct1 (stubClient [])
          { State.init Unit with
            storageAccountsCache :=
              mapSet (State.init Unit).storageAccountsCache "acct1" recordAcct1 }
        = some ((none, none), ad', stateAfterResolve) ∧ ad'.accountKey = some "KEY123")
    ∧ ∃ r, stateAfterResolve.storageAccountsCache "acct1" = some r ∧ r.accountKey = none := by
  have hreach : ReachableWithKeys stubParseAccountID stateAfterResolve :=
    ReachableWithKeys.accountKey recordAcct1 { recordAcct1 with accountKey := some "KEY123" }
      (stubClient []) (none, none)
      (ReachableWithKeys.findAccount (stubClient []) "acct1" (some recordAcct1, none)
        (ReachableWithKeys.addToCache "acct1" rawAcct1 none ReachableWithKeys.init rfl)
        rfl)
      rfl
  exact ⟨hreach, ⟨_, rfl, rfl⟩, recordAcct1, rfl,
    (stored_copy_never_resolved stubParseAccountID stateAfterResolve hreach).1
      "acct1" recordAcct1 rfl⟩

/-! ## FindAccount: the enumeration loop in detail -/

/-- The value of FindAccount on a miss when List answers with a non-nil list, in
terms of what the loop returns: the error of the loop if it has one, else the
entry of the requested name. -/
theorem FindAccount_miss_value {P : Type}
    (ParseAccountID : String → Except Error AccountID) (client : Client P)
    (accountName : String) (s : State P) (accounts : AzureSDK.AccountListResult P)
    (value : List (AzureSDK.Account P))
    (hfree : s.accountsLock = false)
    (hmiss : s.storageAccountsCache accountName = none)
    (hlist : client.AccountsClient.List = Except.ok accounts)
    (hvalue : accounts.Value = some value) :
    FindAccount ParseAccountID client accountName s
      = some (((match (populateLoop ParseAccountID accountName value
                        s.storageAccountsCache).2 with
                | some _ => none
                | none => (populateLoop ParseAccountID accountName value
                            s.storageAccountsCache).1 accountName),
               (populateLoop ParseAccountID accountName value s.storageAccountsCache).2),
          { s with
            storageAccountsCache :=
              (populateLoop ParseAccountID accountName value s.storageAccountsCache).1
            accountsLock := false
            remoteCalls := s.remoteCalls ++ [RemoteCall.List] }) := by
  simp only [FindAccount, hfree, hmiss, hlist, hvalue, Bool.false_eq_true, if_false]
  generalize populateLoop ParseAccountID accountName value s.storageAccountsCache = out
  obtain ⟨m, e⟩ := out
  cases e with
  | some err => rfl
  | none =>
    simp only
    cases hm : m accountName with
    | some existing => rfl
    | none => rfl

/-- The loop stops at the first named account on which populateAccountDetails
fails: it returns that error and the map that the accounts before it gave. -/
theorem populateLoop_stops {P : Type} (ParseAccountID : String → Except Error AccountID)
    (accountName : String) (v : AzureSDK.Account P) (post : List (AzureSDK.Account P))
    (n : String) (err : Error)
    (hname : v.Name = some n)
    (herr : populateAccountDetails ParseAccountID accountName v = Except.error err)
    (pre : List (AzureSDK.Account P)) :
    ∀ m : String → Option (accountDetails P),
      (∀ w ∈ pre, w.Name ≠ none →
        ∃ r, populateAccountDetails ParseAccountID accountName w = Except.ok r) →
      populateLoop ParseAccountID accountName (pre ++ v :: post) m
        = ((populateLoop ParseAccountID accountName pre m).1, some err) := by
  induction pre with
  | nil =>
    intro m _
    simp only [List.nil_append, populateLoop, hname, herr]
  | cons u pre ih =>
    intro m hvalid
    have hrest : ∀ w ∈ pre, w.Name ≠ none →
        ∃ r, populateAccountDetails ParseAccountID accountName w = Except.ok r :=
      fun w hw => hvalid w (List.mem_cons_of_mem _ hw)
    cases huname : u.Name with
    | none =>
      simp only [List.cons_append, populateLoop, huname]
      exact ih m hrest
    | some uName =>
      obtain ⟨r, hr⟩ := hvalid u (List.mem_cons_self _ _) (by simp [huname])
      simp only [List.cons_append, populateLoop, huname, hr]
      exact ih _ hrest

/-- populateAccountDetails fails on a raw account whose ID is missing or rejected
by ParseAccountID. -/
theorem populateAccountDetails_error {P : Type}
    (ParseAccountID : String → Except Error AccountID) (accountName : String)
    (v : AzureSDK.Account P)
    (hbad : v.ID = none
      ∨ ∃ accountId e, v.ID = some accountId ∧ ParseAccountID accountId = Except.error e) :
    ∃ err, populateAccountDetails ParseAccountID accountName v = Except.error err := by
  rcases hbad with hnone | ⟨accountId, e, hid, hparse⟩
  · exact ⟨Error.idWasNil accountName, by simp [populateAccountDetails, hnone]⟩
  · exact ⟨Error.parsingResourceID accountId e, by
      simp [populateAccountDetails, hid, hparse]⟩

/-- Unnamed accounts do not change what the loop returns. -/
theorem populateLoop_filter_named {P : Type}
    (ParseAccountID : String → Except Error AccountID) (accountName : String)
    (value : List (AzureSDK.Account P)) :
    ∀ m : String → Option (accountDetails P),
      populateLoop ParseAccountID accountName (value.filter fun v => v.Name.isSome) m
        = populateLoop ParseAccountID accountName value m := by
  induction value with
  | nil => intro m; rfl
  | cons v rest ih =>
    intro m
    cases hname : v.Name with
    | none =>
      simp only [List.filter, hname, Option.isSome_none, populateLoop]
      exact ih m
    | some vName =>
      simp only [List.filter, hname, Option.isSome_some, populateLoop]
      cases populateAccountDetails ParseAccountID accountName v with
      | error err => rfl
      | ok account => exact ih _

/-! ## FindAccount: an account fails validation during the enumeration -/

/-- C16 as stated fails in two ways. With List answering one account that has
neither name nor ID, the first account with a missing ID is at position 0, yet
FindAccount for acct1 returns (nil, nil), no error. With List answering two valid
accounts named acct1 (in rg1, then in rg2) followed by acct2 without ID,
FindAccount returns an error and the record under acct1 is not built from the
first of the accounts that precede the failing one. -/
theorem FindAccount_validation_failure_cases :
    (∃ s', FindAccount stubParseAccountID (stubClient [rawUnnamedNoID]) "acct1"
        (State.init Unit) = some ((none, none), s')
      ∧ rawUnnamedNoID.ID = none)
    ∧ ∃ err s', FindAccount stubParseAccountID
          (stubClient [rawAcct1, rawAcct1InRg2, rawAcct2NoID]) "acct1" (State.init Unit)
        = some ((none, some err), s')
      ∧ rawAcct1.Name = some "acct1"
      ∧ ¬ ∃ r, s'.storageAccountsCache "acct1" = some r
            ∧ builtFrom stubParseAccountID r rawAcct1 := by
  refine ⟨⟨_, rfl, rfl⟩, _, _, rfl, rfl, ?_⟩
  rintro ⟨r, hr, hid, -, -⟩
  have hr' : r = { ID := idAcct1InRg2, ResourceGroup := "rg2", Properties := none,
                   accountKey := none, name := "acct1" } :=
    (Option.some.inj hr).symm
  subst hr'
  exact absurd (Option.some.inj hid) (by decide)

/-- C16, amended: when the registry lock is free, the name is absent from the map
and List succeeds with a list pre ++ v :: post in which v is the first named
account whose ID is missing or rejected by ParseAccountID (every named account of
pre has an ID that ParseAccountID accepts), FindAccount returns no record and an
error; the map then holds, under the name of each account of pre that no later
account of pre shares its name with, a record built from that account, and every
key that is not the name of an account of pre has the entry it had before the
call, so nothing was inserted for v or for an account of post. -/
theorem FindAccount_validation_failure {P : Type}
    (ParseAccountID : String → Except Error AccountID) (client : Client P)
    (accountName : String) (s : State P) (accounts : AzureSDK.AccountListResult P)
    (pre : List (AzureSDK.Account P)) (v : AzureSDK.Account P)
    (post : List (AzureSDK.Account P)) (n : String)
    (hfree : s.accountsLock = false)
    (hmiss : s.storageAccountsCache accountName = none)
    (hlist : client.AccountsClient.List = Except.ok accounts)
    (hvalue : accounts.Value = some (pre ++ v :: post))
    (hpre : ∀ w ∈ pre, w.Name ≠ none → ∃ accountId id,
      w.ID = some accountId ∧ ParseAccountID accountId = Except.ok id)
    (hname : v.Name = some n)
    (hbad : v.ID = none
      ∨ ∃ accountId e, v.ID = some accountId ∧ ParseAccountID accountId = Except.error e) :
    ∃ err s', FindAccount ParseAccountID client accountName s = some ((none, some err), s')
      ∧ (∀ p1 w p2 k, pre = p1 ++ w :: p2 → w.Name = some k →
          (∀ u ∈ p2, u.Name ≠ some k) →
          ∃ r, s'.storageAccountsCache k = some r ∧ builtFrom ParseAccountID r w)
      ∧ (∀ k, (∀ w ∈ pre, w.Name ≠ some k) →
          s'.storageAccountsCache k = s.storageAccountsCache k) := by
  have hvalid : ∀ w ∈ pre, w.Name ≠ none →
      ∃ r, populateAccountDetails ParseAccountID accountName w = Except.ok r := by
    intro w hw hn
    obtain ⟨accountId, id, hid, hparse⟩ := hpre w hw hn
    exact populateAccountDetails_ok ParseAccountID accountName w accountId id hid hparse
  obtain ⟨err, herr⟩ := populateAccountDetails_error ParseAccountID accountName v hbad
  have hloop := populateLoop_stops ParseAccountID accountName v post n err hname herr pre
    s.storageAccountsCache hvalid
  refine ⟨err,
    { s with
      storageAccountsCache :=
        (populateLoop ParseAccountID accountName pre s.storageAccountsCache).1
      accountsLock := false
      remoteCalls := s.remoteCalls ++ [RemoteCall.List] }, ?_, ?_, ?_⟩
  · rw [FindAccount_miss_value ParseAccountID client accountName s accounts (pre ++ v :: post)
      hfree hmiss hlist hvalue, hloop]
  · intro p1 w p2 k hdec hwname hp2
    have hw : w ∈ pre := by rw [hdec]; simp
    obtain ⟨r, hr⟩ := hvalid w hw (by simp [hwname])
    refine ⟨r, ?_, (populateAccountDetails_builtFrom ParseAccountID accountName w r hr).1⟩
    simp only [hdec]
    apply populateLoop_last ParseAccountID accountName w p2 k r hwname hp2 hr p1
    intro u hu
    exact hvalid u (by rw [hdec]; simp [hu])
  · intro k hk
    exact populateLoop_frame ParseAccountID accountName k pre s.storageAccountsCache hk

/-- C16 amended, at a concrete input: FindAccount for acct1 on the empty registry
with List answering acct1 and then acct2 without ID. -/
theorem FindAccount_validation_failure_witness :
    (State.init Unit).accountsLock = false
    ∧ (State.init Unit).storageAccountsCache "acct1" = none
    ∧ (stubClient [rawAcct1, rawAcct2NoID]).AccountsClient.List
        = Except.ok { Value := some ([rawAcct1] ++ rawAcct2NoID :: []) }
    ∧ (∀ w ∈ [rawAcct1], w.Name ≠ none → ∃ accountId id,
        w.ID = some accountId ∧ stubParseAccountID accountId = Except.ok id)
    ∧ rawAcct2NoID.Name = some "acct2"
    ∧ rawAcct2NoID.ID = none
    ∧ ∃ err s', FindAccount stubParseAccountID (stubClient [rawAcct1, rawAcct2NoID]) "acct1"
          (State.init Unit) = some ((none, some err), s')
        ∧ (∃ r, s'.storageAccountsCache "acct1" = some r
            ∧ builtFrom stubParseAccountID r rawAcct1)
        ∧ s'.storageAccountsCache "acct2" = (State.init Unit).storageAccountsCache "acct2" := by
  have hpre : ∀ w ∈ [rawAcct1], w.Name ≠ none → ∃ accountId id,
      w.ID = some accountId ∧ stubParseAccountID accountId = Except.ok id := by
    intro w hw _
    simp only [List.mem_singleton] at hw
    subst hw
    exact ⟨idAcct1, { ResourceGroup := "rg1" }, rfl, rfl⟩
  refine ⟨rfl, rfl, rfl, hpre, rfl, rfl, ?_⟩
  obtain ⟨err, s', h1, h2, h3⟩ := FindAccount_validation_failure stubParseAccountID
    (stubClient [rawAcct1, rawAcct2NoID]) "acct1" (State.init Unit)
    { Value := some ([rawAcct1] ++ rawAcct2NoID :: []) } [rawAcct1] rawAcct2NoID [] "acct2"
    rfl rfl rfl rfl hpre rfl (Or.inl rfl)
  refine ⟨err, s', h1, h2 [] rawAcct1 [] "acct1" rfl rfl (by simp), h3 "acct2" ?_⟩
  intro w hw
  simp only [List.mem_singleton] at hw
  subst hw
  decide

/-! ## FindAccount: unnamed accounts and the keys of the map -/

/-- C18: on a miss with the registry lock free, FindAccount on a List answer and
FindAccount on the same answer without its unnamed accounts return the same
result and leave the same state, whatever the IDs of the unnamed accounts are: an
unnamed account inserts nothing and raises no error. When every enumerated account
is unnamed the result is (nil, nil) and the map is the map before the call. -/
theorem FindAccount_skips_unnamed {P : Type}
    (ParseAccountID : String → Except Error AccountID) (client client' : Client P)
    (accountName : String) (s : State P) (value : List (AzureSDK.Account P))
    (hfree : s.accountsLock = false)
    (hmiss : s.storageAccountsCache accountName = none)
    (hlist : client.AccountsClient.List = Except.ok { Value := some value })
    (hlist' : client'.AccountsClient.List
      = Except.ok { Value := some (value.filter fun v => v.Name.isSome) }) :
    ∃ res s', FindAccount ParseAccountID client accountName s = some (res, s')
      ∧ FindAccount ParseAccountID client' accountName s = some (res, s')
      ∧ ((∀ v ∈ value, v.Name = none) →
          res = (none, none) ∧ s'.storageAccountsCache = s.storageAccountsCache) := by
  have h1 := FindAccount_miss_value ParseAccountID client accountName s
    { Value := some value } value hfree hmiss hlist rfl
  have h2 := FindAccount_miss_value ParseAccountID client' accountName s
    { Value := some (value.filter fun v => v.Name.isSome) }
    (value.filter fun v => v.Name.isSome) hfree hmiss hlist' rfl
  rw [populateLoop_filter_named ParseAccountID accountName value s.storageAccountsCache] at h2
  refine ⟨_, _, h1, h2, ?_⟩
  intro hall
  have hnil : (value.filter fun v => v.Name.isSome) = [] := by
    rw [List.filter_eq_nil_iff]
    intro v hv
    simp [hall v hv]
  have hloop : populateLoop ParseAccountID accountName value s.storageAccountsCache
      = (s.storageAccountsCache, none) := by
    rw [← populateLoop_filter_named ParseAccountID accountName value s.storageAccountsCache,
      hnil]
    rfl
  simp only [hloop, hmiss]
  exact ⟨trivial, trivial⟩

/-- C18 at a concrete input: FindAccount for acct1 on the empty registry with List
answering an account without name and ID, and then acct2. -/
theorem FindAccount_skips_unnamed_witness :
    (State.init Unit).accountsLock = false
    ∧ (State.init Unit).storageAccountsCache "acct1" = none
    ∧ (stubClient [rawUnnamedNoID, rawAcct2]).AccountsClient.List
        = Except.ok { Value := some [rawUnnamedNoID, rawAcct2] }
    ∧ (stubClient [rawAcct2]).AccountsClient.List
        = Except.ok
            { Value := some ([rawUnnamedNoID, rawAcct2].filter fun v => v.Name.isSome) }
    ∧ ∃ res s', FindAccount stubParseAccountID (stubClient [rawUnnamedNoID, rawAcct2]) "acct1"
          (State.init Unit) = some (res, s')
        ∧ FindAccount stubParseAccountID (stubClient [rawAcct2]) "acct1" (State.init Unit)
          = some (res, s') := by
  refine ⟨rfl, rfl, rfl, rfl, ?_⟩
  obtain ⟨res, s', h1, h2, -⟩ := FindAccount_skips_unnamed stubParseAccountID
    (stubClient [rawUnnamedNoID, rawAcct2]) (stubClient [rawAcct2]) "acct1" (State.init Unit)
    [rawUnnamedNoID, rawAcct2] rfl rfl rfl rfl
  exact ⟨res, s', h1, h2⟩

/-- C19: called with the registry lock free, FindAccount returns for every state,
name and remote client, and in the state after the call every key that was in the
map is still in it, every key that is not the name of an enumerated account has
the entry it had, and every key of the map was in it before or is the name of an
enumerated account. -/
theorem FindAccount_never_removes {P : Type}
    (ParseAccountID : String → Except Error AccountID) (client : Client P)
    (accountName : String) (s : State P)
    (hfree : s.accountsLock = false) :
    ∃ res s', FindAccount ParseAccountID client accountName s = some (res, s')
      ∧ (∀ k, (s.storageAccountsCache k).isSome = true →
          (s'.storageAccountsCache k).isSome = true)
      ∧ (∀ k, (∀ v ∈ enumeratedAccounts client, v.Name ≠ some k) →
          s'.storageAccountsCache k = s.storageAccountsCache k)
      ∧ (∀ k, (s'.storageAccountsCache k).isSome = true →
          (s.storageAccountsCache k).isSome = true
            ∨ ∃ v ∈ enumeratedAccounts client, v.Name = some k) := by
  have hthird : ∀ s' : State P,
      (∀ k, (∀ v ∈ enumeratedAccounts client, v.Name ≠ some k) →
        s'.storageAccountsCache k = s.storageAccountsCache k) →
      ∀ k, (s'.storageAccountsCache k).isSome = true →
        (s.storageAccountsCache k).isSome = true
          ∨ ∃ v ∈ enumeratedAccounts client, v.Name = some k := by
    intro s' hframe k hk
    by_cases hex : ∃ v ∈ enumeratedAccounts client, v.Name = some k
    · exact Or.inr hex
    · left
      rw [← hframe k (fun v hv hn => hex ⟨v, hv, hn⟩)]
      exact hk
  cases hc : s.storageAccountsCache accountName with
  | some existing =>
    refine ⟨_, _, FindAccount_of_stored ParseAccountID client accountName s existing hfree hc,
      fun _ h => h, fun _ _ => rfl, hthird s (fun _ _ => rfl)⟩
  | none =>
    cases hlist : client.AccountsClient.List with
    | error e =>
      have hframe : ∀ k, (∀ v ∈ enumeratedAccounts client, v.Name ≠ some k) →
          ({ s with accountsLock := false, remoteCalls := s.remoteCalls ++ [RemoteCall.List] }
            : State P).storageAccountsCache k = s.storageAccountsCache k :=
        fun _ _ => rfl
      exact ⟨(none, some (Error.retrievingAccounts e)),
        { s with accountsLock := false, remoteCalls := s.remoteCalls ++ [RemoteCall.List] },
        by simp [FindAccount, hfree, hc, hlist], fun _ h => h, hframe, hthird _ hframe⟩
    | ok accounts =>
      cases hvalue : accounts.Value with
      | none =>
        have hframe : ∀ k, (∀ v ∈ enumeratedAccounts client, v.Name ≠ some k) →
            ({ s with accountsLock := false, remoteCalls := s.remoteCalls ++ [RemoteCall.List] }
              : State P).storageAccountsCache k = s.storageAccountsCache k :=
          fun _ _ => rfl
        exact ⟨(none, some Error.accountsWasNil),
          { s with accountsLock := false, remoteCalls := s.remoteCalls ++ [RemoteCall.List] },
          by simp [FindAccount, hfree, hc, hlist, hvalue], fun _ h => h, hframe,
          hthird _ hframe⟩
      | some value =>
        have henum : enumeratedAccounts client = value := by
          simp [enumeratedAccounts, hlist, returnedAccounts, hvalue]
        have hframe : ∀ k, (∀ v ∈ enumeratedAccounts client, v.Name ≠ some k) →
            ({ s with
                storageAccountsCache :=
                  (populateLoop ParseAccountID accountName value s.storageAccountsCache).1
                accountsLock := false
                remoteCalls := s.remoteCalls ++ [RemoteCall.List] }
              : State P).storageAccountsCache k = s.storageAccountsCache k := by
          intro k hk
          rw [henum] at hk
          exact populateLoop_frame ParseAccountID accountName k value s.storageAccountsCache hk
        exact ⟨_, _,
          FindAccount_miss_value ParseAccountID client accountName s accounts value hfree hc
            hlist hvalue,
          fun k hk => populateLoop_keeps_keys ParseAccountID accountName k value
            s.storageAccountsCache hk,
          hframe, hthird _ hframe⟩

/-- C19 at a concrete input: FindAccount for acct2 on a registry that holds acct1,
with List answering acct2; acct1 keeps its entry. -/
theorem FindAccount_never_removes_witness :
    ({ State.init Unit with
        storageAccountsCache := mapSet (State.init Unit).storageAccountsCache "acct1" recordAcct1 }
      : State Unit).accountsLock = false
    ∧ ∃ res s', FindAccount stubParseAccountID (stubClient [rawAcct2]) "acct2"
          { State.init Unit with
            storageAccountsCache :=
              mapSet (State.init Unit).storageAccountsCache "acct1" recordAcct1 }
          = some (res, s')
        ∧ s'.storageAccountsCache "acct1" = some recordAcct1 := by
  refine ⟨rfl, ?_⟩
  obtain ⟨res, s', h1, -, h3, -⟩ := FindAccount_never_removes stubParseAccountID
    (stubClient [rawAcct2]) "acct2"
    ({ State.init Unit with
        storageAccountsCache := mapSet (State.init Unit).storageAccountsCache "acct1" recordAcct1 }
      : State Unit) rfl
  refine ⟨res, s', h1, ?_⟩
  rw [h3 "acct1" ?_]
  · rfl
  · intro v hv
    have hv' : v = rawAcct2 := by
      simpa [enumeratedAccounts, stubClient, returnedAccounts] using hv
    subst hv'
    decide

end Storage
